import Mathlib

/-!
Verification of the FirstLine Kaggle MedGemma inference server
(`src/kaggle/kaggle_medgemma_server.py`).

The Python source is shallowly embedded below: pure helpers become Lean
functions, the JSON values produced by `json.loads` become a `Json` datatype,
Python exceptions become `Except`, and the opaque model collaborator becomes
an explicit `Provider` record.  Theorems after the definitions settle the
specification claims.
-/

-- ── Characters used symbolically (quote, backslash, braces, apostrophe) ────

def qchar : Char := Char.ofNat 34

def bslash : Char := Char.ofNat 92

def lbrace : Char := Char.ofNat 123

def rbrace : Char := Char.ofNat 125

def aposS : String := String.singleton (Char.ofNat 39)

-- ── Python string primitives ───────────────────────────────────────────────

/-- Whitespace characters stripped by Python `str.strip()` (ASCII range). -/
def pyWS (c : Char) : Bool :=
  c == ' ' || c == Char.ofNat 9 || c == Char.ofNat 10 || c == Char.ofNat 13 ||
  c == Char.ofNat 11 || c == Char.ofNat 12

def pyStripList (cs : List Char) : List Char :=
  ((cs.dropWhile pyWS).reverse.dropWhile pyWS).reverse

/-- Python `str.strip()`. -/
def pyStrip (s : String) : String := String.mk (pyStripList s.toList)

/-- Python `str.lower()` (ASCII range). -/
def pyLower (s : String) : String := String.mk (s.toList.map Char.toLower)

/-- Python `str.upper()` (ASCII range). -/
def pyUpper (s : String) : String := String.mk (s.toList.map Char.toUpper)

/-- Prefix test on character lists. -/
def listPre : List Char → List Char → Bool
  | [], _ => true
  | _ :: _, [] => false
  | a :: as, b :: bs => a == b && listPre as bs

/-- Substring test on character lists. -/
def listSub : List Char → List Char → Bool
  | t, [] => listPre t []
  | t, s :: rest => listPre t (s :: rest) || listSub t rest

/-- Python `t in s` (substring containment). -/
def pyIn (t s : String) : Bool := listSub t.toList s.toList

-- ── Output extractor: `_clean_json_block` ──────────────────────────────────

def fenceChars : List Char := "```".toList

def jsonTag : List Char := "json".toList

/-- Embeds `re.sub(r"^```(?:json)?", "", text, flags=re.IGNORECASE)`:
at position 0 the regex greedily drops a fence and an optional
case-insensitive "json" tag; elsewhere `^` cannot match. -/
def stripLeadFence (cs : List Char) : List Char :=
  if listPre fenceChars cs then
    let rest := cs.drop 3
    if listPre jsonTag (rest.map Char.toLower) then rest.drop 4 else rest
  else cs

/-- Embeds `re.sub(r"```$", "", text)` on already-stripped text (where `$`
can only be the end of the string). -/
def stripTrailFence (cs : List Char) : List Char :=
  if listPre fenceChars cs.reverse then (cs.reverse.drop 3).reverse else cs

/-- Index of the first occurrence of a character. -/
def firstIdx (c : Char) : List Char → Option Nat
  | [] => none
  | a :: rest => if a == c then some 0 else (firstIdx c rest).map (· + 1)

/-- Index of the last occurrence of a character. -/
def lastIdx (c : Char) : List Char → Option Nat
  | [] => none
  | a :: rest =>
    match lastIdx c rest with
    | some j => some (j + 1)
    | none => if a == c then some 0 else none

/-- Embeds `re.search(r"\x7b[\s\S]*\x7d", text)`: leftmost match, with the
greedy star extending to the last closing brace of the whole text. -/
def reSearch : List Char → Option (List Char)
  | [] => none
  | c :: rest =>
    if c == lbrace then
      match lastIdx rbrace rest with
      | some j => some (c :: rest.take (j + 1))
      | none => reSearch rest
    else reSearch rest

/-- Embeds `_clean_json_block` (kaggle_medgemma_server.py lines 70-76). -/
def cleanJsonBlock (text : String) : String :=
  let t1 := pyStripList text.toList
  let t2 := pyStripList (stripLeadFence t1)
  let t3 := pyStripList (stripTrailFence t2)
  match reSearch t3 with
  | some m => String.mk m
  | none => String.mk t3

/-- Modelled from the spec words for the extractor: after the same trimming
and fence stripping, return the substring from the first opening brace to the
last closing brace of the remaining text when such a substring exists, and
otherwise the trimmed, fence-stripped text unchanged. -/
def cleanJsonBlockSpec (text : String) : String :=
  let t1 := pyStripList text.toList
  let t2 := pyStripList (stripLeadFence t1)
  let t3 := pyStripList (stripTrailFence t2)
  match firstIdx lbrace t3, lastIdx rbrace t3 with
  | some i, some j =>
    if i < j then String.mk ((t3.drop i).take (j - i + 1)) else String.mk t3
  | _, _ => String.mk t3

-- ── JSON values as produced by `json.loads` ────────────────────────────────

mutual
inductive Json where
  | null
  | bool (b : Bool)
  | num (n : Int)
  | str (s : String)
  | arr (xs : Jarr)
  | obj (kvs : Jobj)
inductive Jarr where
  | nil
  | cons (hd : Json) (tl : Jarr)
inductive Jobj where
  | nil
  | cons (k : String) (v : Json) (tl : Jobj)
end

def Jarr.toList : Jarr → List Json
  | .nil => []
  | .cons v tl => v :: tl.toList

def Jobj.isEmpty : Jobj → Bool
  | .nil => true
  | .cons _ _ _ => false

/-- Python `dict` lookup (`d.get(k)`); objects built below have unique keys. -/
def dictGet : Jobj → String → Option Json
  | .nil, _ => none
  | .cons k0 v0 tl, k => if k0 == k then some v0 else dictGet tl k

/-- Python `d[k] = v`: overwrite in place, or append a new key at the end. -/
def setKey : Jobj → String → Json → Jobj
  | .nil, k, v => .cons k v .nil
  | .cons k0 v0 tl, k, v =>
    if k0 == k then .cons k0 v tl else .cons k0 v0 (setKey tl k v)

mutual
/-- Python `repr` on values decoded from JSON (string escaping elided). -/
def pyRepr : Json → String
  | .null => "None"
  | .bool true => "True"
  | .bool false => "False"
  | .num n => toString n
  | .str s => aposS ++ s ++ aposS
  | .arr xs => "[" ++ pyReprA xs ++ "]"
  | .obj kvs => "\x7b" ++ pyReprO kvs ++ "\x7d"
def pyReprA : Jarr → String
  | .nil => ""
  | .cons v .nil => pyRepr v
  | .cons v tl => pyRepr v ++ ", " ++ pyReprA tl
def pyReprO : Jobj → String
  | .nil => ""
  | .cons k v .nil => aposS ++ k ++ aposS ++ ": " ++ pyRepr v
  | .cons k v tl => aposS ++ k ++ aposS ++ ": " ++ pyRepr v ++ ", " ++ pyReprO tl
end

/-- Python `str()` on values decoded from JSON. -/
def pyStr : Json → String
  | .str s => s
  | .null => "None"
  | .bool true => "True"
  | .bool false => "False"
  | .num n => toString n
  | .arr xs => pyRepr (.arr xs)
  | .obj kvs => pyRepr (.obj kvs)

/-- Python `bool()` (truthiness) on values decoded from JSON. -/
def pyBool : Json → Bool
  | .null => false
  | .bool b => b
  | .num n => n != 0
  | .str s => !(s == "")
  | .arr xs => match xs with | .nil => false | .cons _ _ => true
  | .obj kvs => !kvs.isEmpty

/-- Python exceptions relevant to the inference path: `TypeError` from
`list(...)`, `AttributeError` from `.get` on a non-dict, and pydantic's
`ValidationError` from `InferResponse(...)` construction. -/
inductive PyErr where
  | typeError
  | attributeError
  | validationError
deriving DecidableEq

/-- Python `list()` on values decoded from JSON: strings yield their
characters, arrays their elements, dicts their keys; other values raise
`TypeError`. -/
def pyList : Json → Except PyErr (List Json)
  | .str s => .ok (s.toList.map (fun c => .str (String.singleton c)))
  | .arr xs => .ok xs.toList
  | .obj kvs => .ok (pyKeys kvs)
  | .null => .error .typeError
  | .bool _ => .error .typeError
  | .num _ => .error .typeError
where
  pyKeys : Jobj → List Json
    | .nil => []
    | .cons k _ tl => .str k :: pyKeys tl

/-- Pydantic validation of a `List[str]` field value: each element must be a
string, otherwise `InferResponse(...)` raises `ValidationError` (a list,
dict, number, boolean or None element is not a valid `str`). -/
def validateStrList : List Json → Except PyErr (List String)
  | [] => .ok []
  | .str s :: vs =>
    match validateStrList vs with
    | .ok ss => .ok (s :: ss)
    | .error e => .error e
  | _ :: _ => .error .validationError

-- ── `json.loads`, modelled for the integer fragment of JSON ────────────────

def jsonWS (c : Char) : Bool :=
  c == ' ' || c == Char.ofNat 9 || c == Char.ofNat 10 || c == Char.ofNat 13

def skipWS (cs : List Char) : List Char := cs.dropWhile jsonWS

def escChar (c : Char) : Option Char :=
  if c == qchar then some qchar
  else if c == bslash then some bslash
  else if c == '/' then some '/'
  else if c == 'n' then some (Char.ofNat 10)
  else if c == 't' then some (Char.ofNat 9)
  else if c == 'r' then some (Char.ofNat 13)
  else if c == 'b' then some (Char.ofNat 8)
  else if c == 'f' then some (Char.ofNat 12)
  else none

/-- Body of a JSON string literal, after the opening quote. -/
def parseStrBody : List Char → Option (String × List Char)
  | [] => none
  | c :: rest =>
    if c == qchar then some ("", rest)
    else if c == bslash then
      match rest with
      | [] => none
      | e :: rest2 =>
        match escChar e with
        | some ec =>
          (parseStrBody rest2).map (fun p => (String.singleton ec ++ p.1, p.2))
        | none => none
    else (parseStrBody rest).map (fun p => (String.singleton c ++ p.1, p.2))

def digitsToNat (ds : List Char) : Nat :=
  ds.foldl (fun n c => n * 10 + (c.toNat - 48)) 0

def parseNum : List Char → Option (Json × List Char)
  | [] => none
  | c :: rest =>
    if c == '-' then
      let ds := rest.takeWhile Char.isDigit
      if ds.isEmpty then none
      else some (.num (-(digitsToNat ds : Int)), rest.drop ds.length)
    else
      let ds := (c :: rest).takeWhile Char.isDigit
      if ds.isEmpty then none
      else some (.num (digitsToNat ds), (c :: rest).drop ds.length)

def jarrOf : List Json → Jarr
  | [] => .nil
  | v :: vs => .cons v (jarrOf vs)

/-- Parser modes: a value, the items of an array, or the members of an
object (the accumulated members model Python dict build-up, so a duplicate
key overwrites in place). -/
inductive PMode where
  | val
  | items (acc : List Json)
  | members (acc : Jobj)

/-- Recursive-descent JSON parser, fuelled so that all recursion is
structural on the fuel. -/
def parseF : Nat → PMode → List Char → Option (Json × List Char)
  | 0, _, _ => none
  | f + 1, .val, cs =>
    match skipWS cs with
    | [] => none
    | c :: rest =>
      if c == lbrace then
        match skipWS rest with
        | [] => none
        | d :: rest2 =>
          if d == rbrace then some (.obj .nil, rest2)
          else parseF f (.members .nil) (d :: rest2)
      else if c == '[' then
        match skipWS rest with
        | [] => none
        | d :: rest2 =>
          if d == ']' then some (.arr .nil, rest2)
          else parseF f (.items []) (d :: rest2)
      else if c == qchar then
        match parseStrBody rest with
        | some (s, rest2) => some (.str s, rest2)
        | none => none
      else if c == 't' then
        if listPre "rue".toList rest then some (.bool true, rest.drop 3) else none
      else if c == 'f' then
        if listPre "alse".toList rest then some (.bool false, rest.drop 4) else none
      else if c == 'n' then
        if listPre "ull".toList rest then some (.null, rest.drop 3) else none
      else parseNum (c :: rest)
  | f + 1, .items acc, cs =>
    match parseF f .val cs with
    | none => none
    | some (v, rest) =>
      match skipWS rest with
      | [] => none
      | c :: rest2 =>
        if c == ',' then parseF f (.items (v :: acc)) rest2
        else if c == ']' then some (.arr (jarrOf (v :: acc).reverse), rest2)
        else none
  | f + 1, .members acc, cs =>
    match skipWS cs with
    | [] => none
    | c :: rest =>
      if c == qchar then
        match parseStrBody rest with
        | none => none
        | some (k, rest2) =>
          match skipWS rest2 with
          | [] => none
          | d :: rest3 =>
            if d == ':' then
              match parseF f .val rest3 with
              | none => none
              | some (v, rest4) =>
                match skipWS rest4 with
                | [] => none
                | e :: rest5 =>
                  if e == ',' then parseF f (.members (setKey acc k v)) rest5
                  else if e == rbrace then some (.obj (setKey acc k v), rest5)
                  else none
            else none
      else none

/-- Embeds `json.loads`: parse one value and require only trailing
whitespace, otherwise raise (here: `none`). -/
def parseJson (s : String) : Option Json :=
  match parseF (s.length + 1) .val s.toList with
  | some (v, rest) => if (skipWS rest).isEmpty then some v else none
  | none => none

-- ── Request / Response schemas ─────────────────────────────────────────────

def MODEL_ID : String := "google/medgemma-4b-it"

/-- Embeds the `InferRequest` pydantic model (lines 37-45). -/
structure InferRequest where
  symptoms : String
  age : Option Int := none
  sex : Option String := none
  location : Option String := none
  followupResponses : List String := []
  task : Option String := none
  riskTier : Option String := none
  dangerSigns : List String := []

/-- Embeds the `InferResponse` pydantic model (lines 48-58); the `List[str]`
fields hold strings, as enforced by pydantic validation at construction. -/
structure InferResponse where
  riskTier : String
  referralRecommended : Bool
  recommendedNextSteps : List String
  watchOuts : List String
  dangerSigns : List String
  uncertainty : String
  disclaimer : String
  reasoning : String
  model : String
  source : String

def disclaimerText : String := "This is not a diagnosis. Seek professional medical care."

-- ── Heuristic fallback (lines 81-118) ──────────────────────────────────────

def cantBreathe : String := "can" ++ aposS ++ "t breathe"

def redTerms : List String :=
  ["chest pain", "cannot breathe", cantBreathe, "unconscious", "seizure", "convulsion"]

def yellowTerms : List String :=
  ["fever", "vomit", "vomiting", "pain", "cough", "weakness"]

/-- Embeds `_heuristic_fallback` (lines 81-118). -/
def heuristicFallback (symptomsText : String) : InferResponse :=
  let s := pyLower symptomsText
  let red := redTerms.any (fun t => pyIn t s)
  let yellow := yellowTerms.any (fun t => pyIn t s)
  if red then
    { riskTier := "RED", referralRecommended := true
      recommendedNextSteps := ["Seek emergency care immediately."]
      watchOuts := ["Breathing difficulty", "Loss of consciousness"]
      dangerSigns := ["Critical symptom pattern"]
      uncertainty := "LOW"
      disclaimer := disclaimerText
      reasoning := "Heuristic detected emergency red-flag symptoms."
      model := MODEL_ID, source := "kaggle-heuristic" }
  else if yellow then
    { riskTier := "YELLOW", referralRecommended := true
      recommendedNextSteps := ["Visit a clinic within 24 hours.", "Monitor symptoms closely."]
      watchOuts := ["Worsening fever", "Persistent vomiting", "New danger signs"]
      dangerSigns := [], uncertainty := "MEDIUM"
      disclaimer := disclaimerText
      reasoning := "Heuristic detected moderate-risk symptoms."
      model := MODEL_ID, source := "kaggle-heuristic" }
  else
    { riskTier := "GREEN", referralRecommended := false
      recommendedNextSteps := ["Home care and monitor symptoms."]
      watchOuts := ["If symptoms worsen, seek care promptly."]
      dangerSigns := [], uncertainty := "MEDIUM"
      disclaimer := disclaimerText
      reasoning := "No high-risk symptom terms detected."
      model := MODEL_ID, source := "kaggle-heuristic" }

-- ── Prompt builders (lines 123-192) ────────────────────────────────────────

/-- Python f-string rendering of an optional integer field (`None` prints as
the literal string "None"). -/
def fmtOptInt : Option Int → String
  | none => "None"
  | some n => toString n

def fmtOptStr : Option String → String
  | none => "None"
  | some s => s

/-- Embeds `_build_triage_prompt` (lines 123-143). -/
def buildTriagePrompt (payload : InferRequest) : String :=
  pyStrip
    ("You are a clinical triage assistant. Return ONLY valid JSON.\n\nPatient:\n- Age: "
      ++ fmtOptInt payload.age
      ++ "\n- Sex: " ++ fmtOptStr payload.sex
      ++ "\n- Location: " ++ fmtOptStr payload.location
      ++ "\n- Symptoms: " ++ payload.symptoms
      ++ "\n- Follow-up responses: "
      ++ (if payload.followupResponses.isEmpty then "None"
          else String.intercalate "; " payload.followupResponses)
      ++ "\n\nReturn JSON with this exact schema:\n\x7b\n  \"riskTier\": \"RED|YELLOW|GREEN\",\n  \"referralRecommended\": true,\n  \"recommendedNextSteps\": [\"...\"],\n  \"watchOuts\": [\"...\"],\n  \"dangerSigns\": [\"...\"],\n  \"uncertainty\": \"LOW|MEDIUM|HIGH\",\n  \"disclaimer\": \"This is not a diagnosis. Seek professional medical care.\",\n  \"reasoning\": \"Brief clinical reasoning\"\n\x7d")

/-- Embeds `_build_normalize_prompt` (lines 146-158). -/
def buildNormalizePrompt (payload : InferRequest) : String :=
  pyStrip
    ("You are a medical intake assistant. Normalize and structure the following patient symptoms.\n\nPatient: "
      ++ fmtOptInt payload.age ++ "yo " ++ fmtOptStr payload.sex
      ++ "\nRaw Symptoms: " ++ payload.symptoms
      ++ "\n\nReturn ONLY valid JSON:\n\x7b\n  \"primaryComplaint\": \"main medical issue\",\n  \"duration\": \"how long occurring\",\n  \"severity\": \"Mild|Moderate|Severe\",\n  \"extractedSymptoms\": [\"symptom1\", \"symptom2\"]\n\x7d")

/-- Embeds `_build_followup_prompt` (lines 161-171). -/
def buildFollowupPrompt (payload : InferRequest) : String :=
  pyStrip
    ("You are a medical triage assistant. Generate 3-5 follow-up questions for this patient.\n\nAge: "
      ++ fmtOptInt payload.age
      ++ "\nSex: " ++ fmtOptStr payload.sex
      ++ "\nChief Complaint: " ++ payload.symptoms
      ++ "\n\nGenerate questions to assess severity and urgency. Return ONLY a JSON object:\n\x7b\n  \"questions\": [\"Question 1?\", \"Question 2?\", \"Question 3?\"]\n\x7d")

/-- Embeds `_build_referral_prompt` (lines 174-184). -/
def buildReferralPrompt (payload : InferRequest) : String :=
  pyStrip
    ("You are a clinical referral assistant. Write a concise professional referral summary for the receiving healthcare provider.\n\nPatient: "
      ++ fmtOptInt payload.age ++ "yo " ++ fmtOptStr payload.sex
      ++ "\nLocation: " ++ fmtOptStr payload.location
      ++ "\nPresenting Complaint: " ++ payload.symptoms
      ++ "\n\nWrite 2-3 paragraphs covering: clinical presentation, assessment rationale, and recommended actions. Return ONLY a JSON object:\n\x7b\n  \"summary\": \"Your referral summary text here...\"\n\x7d")

/-- Embeds `PROMPT_BUILDERS.get(task, _build_triage_prompt)` (lines 187-192
and 277). -/
def chosenBuilder (task : String) : InferRequest → String :=
  if task == "triage" then buildTriagePrompt
  else if task == "normalize_intake" then buildNormalizePrompt
  else if task == "generate_followup" then buildFollowupPrompt
  else if task == "generate_referral" then buildReferralPrompt
  else buildTriagePrompt

-- ── Triage normalization (infer lines 292-311) ─────────────────────────────

/-- Embeds the triage branch of `infer` (lines 292-311): per-field repair of
the parsed model JSON into an `InferResponse`.  Python raises
`AttributeError` on `data.get` when `data` is not a dict, and `TypeError`
inside `list(...)` when a present sequence field is not iterable; after the
keyword arguments are evaluated, the pydantic `InferResponse(...)`
constructor validates its three `List[str]` fields and raises
`ValidationError` on a non-string element.  All three exceptions surface
here as `Except.error`. -/
def normalizeTriage (data : Json) : Except PyErr InferResponse :=
  match data with
  | .obj kvs =>
    let risk0 := pyUpper (pyStr ((dictGet kvs "riskTier").getD (.str "YELLOW")))
    let risk := if risk0 == "RED" || risk0 == "YELLOW" || risk0 == "GREEN" then risk0 else "YELLOW"
    let unc0 := pyUpper (pyStr ((dictGet kvs "uncertainty").getD (.str "MEDIUM")))
    let unc := if unc0 == "LOW" || unc0 == "MEDIUM" || unc0 == "HIGH" then unc0 else "MEDIUM"
    match pyList ((dictGet kvs "recommendedNextSteps").getD
        (.arr (.cons (.str "Seek medical evaluation.") .nil))) with
    | .error e => .error e
    | .ok steps0 =>
      match pyList ((dictGet kvs "watchOuts").getD
          (.arr (.cons (.str "If symptoms worsen, seek care promptly.") .nil))) with
      | .error e => .error e
      | .ok wos0 =>
        match pyList ((dictGet kvs "dangerSigns").getD (.arr .nil)) with
        | .error e => .error e
        | .ok ds0 =>
          match validateStrList steps0 with
          | .error e => .error e
          | .ok steps =>
            match validateStrList wos0 with
            | .error e => .error e
            | .ok wos =>
              match validateStrList ds0 with
              | .error e => .error e
              | .ok ds =>
                .ok { riskTier := risk
                      referralRecommended :=
                        pyBool ((dictGet kvs "referralRecommended").getD (.bool (risk != "GREEN")))
                      recommendedNextSteps := steps, watchOuts := wos, dangerSigns := ds
                      uncertainty := unc
                      disclaimer := pyStr ((dictGet kvs "disclaimer").getD (.str disclaimerText))
                      reasoning := pyStr ((dictGet kvs "reasoning").getD (.str "MedGemma inference completed."))
                      model := MODEL_ID, source := "kaggle-medgemma" }
  | _ => .error .attributeError

-- ── Inference orchestrator (infer, lines 270-314) ──────────────────────────

/-- The opaque model collaborator: the loaded flag summarizes
`MODEL_STATE["loaded"] and MODEL is not None and PROCESSOR is not None`, and
`generate prompt maxTokens` is `_run_medgemma`, which either returns decoded
text or raises. -/
structure Provider where
  loaded : Bool
  generate : String → Nat → Except String String

/-- Embeds `task = payload.task or "triage"` (line 272): Python `or` also
replaces the falsy empty string. -/
def resolveTask : Option String → String
  | none => "triage"
  | some t => if t == "" then "triage" else t

/-- The two shapes a 200-response body can take. -/
inductive InferOutcome where
  | resp (r : InferResponse)
  | mapping (m : Jobj)

/-- Embeds the `/infer` handler (lines 270-314).  The function is total: every
exception of the model path is absorbed into the heuristic fallback, exactly
like the `try/except` in the source. -/
def infer (P : Provider) (payload : InferRequest) : InferOutcome :=
  let task := resolveTask payload.task
  if !P.loaded then .resp (heuristicFallback payload.symptoms)
  else
    let builder := chosenBuilder task
    let maxTok := if task != "triage" then 250 else 350
    let prompt := builder payload
    match P.generate prompt maxTok with
    | .error _ => .resp (heuristicFallback payload.symptoms)
    | .ok text =>
      match parseJson (cleanJsonBlock text) with
      | none => .resp (heuristicFallback payload.symptoms)
      | some data =>
        if task != "triage" then
          match data with
          | .obj kvs =>
            .mapping (setKey (setKey kvs "model" (.str MODEL_ID)) "source" (.str "kaggle-medgemma"))
          | _ => .resp (heuristicFallback payload.symptoms)
        else
          match normalizeTriage data with
          | .ok r => .resp r
          | .error _ => .resp (heuristicFallback payload.symptoms)

/-- The provenance `source` field of a response body. -/
def outcomeSource : InferOutcome → Option Json
  | .resp r => some (.str r.source)
  | .mapping m => dictGet m "source"

/-- The `recommendedNextSteps` field of a triage response body. -/
def respSteps : InferOutcome → Option (List String)
  | .resp r => some r.recommendedNextSteps
  | .mapping _ => none

/-- Array of strings test (the array shape pydantic accepts for a
`List[str]` field). -/
def allStrs : Jarr → Bool
  | .nil => true
  | .cons (.str _) tl => allStrs tl
  | .cons _ _ => false

/-- Value categories a sequence field may hold without the normalization
raising: absent, a string (its characters are one-character strings), an
object (iteration yields its string keys), or an array whose elements are
all strings.  Anything else raises at `list(...)` or at pydantic
validation. -/
def listOk : Option Json → Bool
  | none => true
  | some (.str _) => true
  | some (.arr xs) => allStrs xs
  | some (.obj _) => true
  | some .null => false
  | some (.bool _) => false
  | some (.num _) => false

def btick : Char := Char.ofNat 96

def nlChar : Char := Char.ofNat 10

/-- Trailing-whitespace trim (the second half of `str.strip()`). -/
def pyStripBack (cs : List Char) : List Char := (cs.reverse.dropWhile pyWS).reverse

-- ── Sanity checks on concrete inputs ───────────────────────────────────────

example : cleanJsonBlock "```json\n\x7b\"a\": 1\x7d\n```" = "\x7b\"a\": 1\x7d" := rfl
example : cleanJsonBlock "no braces here" = "no braces here" := rfl
example : cleanJsonBlock "x \x7b y" = "x \x7b y" := rfl

example : pyStr (.obj (.cons "a" (.num 1) .nil)) = "\x7b" ++ aposS ++ "a" ++ aposS ++ ": 1\x7d" := rfl
example : pyBool (.str "") = false := rfl

example : parseJson "\x7b\"a\": 1\x7d" = some (.obj (.cons "a" (.num 1) .nil)) := rfl
example : parseJson "[1, -2, \"x\"]" =
    some (.arr (.cons (.num 1) (.cons (.num (-2)) (.cons (.str "x") .nil)))) := rfl
example : parseJson "\x7b\"a\": 1\x7d trailing" = none := rfl
example : parseJson "\x7b\"a\": \x7b\"b\": [true, null]\x7d\x7d" =
    some (.obj (.cons "a" (.obj (.cons "b" (.arr (.cons (.bool true) (.cons .null .nil))) .nil)) .nil)) := rfl
example : parseJson "\x7b\"a\": 1, \"a\": 2\x7d" = some (.obj (.cons "a" (.num 2) .nil)) := rfl

example :
    infer { loaded := false, generate := fun _ _ => .error "x" } { symptoms := "fever" } =
      .resp (heuristicFallback "fever") := rfl
example :
    infer { loaded := true, generate := fun _ _ => .ok "\x7b\"riskTier\": \"unknown\"\x7d" }
        { symptoms := "fever" } =
      .resp { riskTier := "YELLOW", referralRecommended := true
              recommendedNextSteps := ["Seek medical evaluation."]
              watchOuts := ["If symptoms worsen, seek care promptly."]
              dangerSigns := [], uncertainty := "MEDIUM"
              disclaimer := disclaimerText
              reasoning := "MedGemma inference completed."
              model := MODEL_ID, source := "kaggle-medgemma" } := rfl

-- ── Shared lemmas ──────────────────────────────────────────────────────────

theorem heuristicFallback_source (s : String) :
    (heuristicFallback s).source = "kaggle-heuristic" := by
  unfold heuristicFallback
  by_cases h1 : (redTerms.any fun t => pyIn t (pyLower s)) = true
  · simp [h1]
  · by_cases h2 : (yellowTerms.any fun t => pyIn t (pyLower s)) = true
    · simp [h1, h2]
    · simp [h1, h2]

theorem normalizeTriage_source (d : Json) (r : InferResponse)
    (h : normalizeTriage d = .ok r) : r.source = "kaggle-medgemma" := by
  unfold normalizeTriage at h
  split at h <;> try exact Except.noConfusion h
  split at h <;> try exact Except.noConfusion h
  split at h <;> try exact Except.noConfusion h
  split at h <;> try exact Except.noConfusion h
  split at h <;> try exact Except.noConfusion h
  split at h <;> try exact Except.noConfusion h
  split at h <;> try exact Except.noConfusion h
  cases h; rfl

theorem dictGet_setKey_self :
    ∀ (m : Jobj) (k : String) (v : Json), dictGet (setKey m k v) k = some v
  | .nil, k, v => by simp [setKey, dictGet]
  | .cons k0 v0 tl, k, v => by
    by_cases h : (k0 == k) = true
    · simp [setKey, dictGet, h]
    · simp only [setKey, dictGet, h, Bool.false_eq_true, if_false]
      exact dictGet_setKey_self tl k v

/-- Every `/infer` outcome is either the heuristic fallback on the request's
symptoms, a normalized triage response, or the non-triage passthrough
mapping. -/
theorem infer_shape (P : Provider) (req : InferRequest) :
    infer P req = .resp (heuristicFallback req.symptoms) ∨
    (∃ d r, normalizeTriage d = .ok r ∧ infer P req = .resp r) ∨
    (∃ kvs, infer P req =
      .mapping (setKey (setKey kvs "model" (.str MODEL_ID)) "source" (.str "kaggle-medgemma"))) := by
  unfold infer
  dsimp only
  split
  · exact Or.inl rfl
  · split
    · exact Or.inl rfl
    · split
      · exact Or.inl rfl
      · split
        · split
          · exact Or.inr (Or.inr ⟨_, rfl⟩)
          · exact Or.inl rfl
        · split
          · rename_i r heq
            exact Or.inr (Or.inl ⟨_, r, heq, rfl⟩)
          · exact Or.inl rfl

-- ── C1 ─────────────────────────────────────────────────────────────────────

/-- C1, counterexample: the heuristic fallback tags its responses with the
literal source "kaggle-heuristic", which is neither "heuristic" nor "model",
so the claimed two-value tag set does not match the code. -/
theorem c1_counterexample :
    (heuristicFallback "headache").source = "kaggle-heuristic" ∧
    ¬ ((heuristicFallback "headache").source = "heuristic" ∨
       (heuristicFallback "headache").source = "model") := by decide

/-- C1, amended: every response to the inference handler carries a
provenance source tag in the two-value set used by the code,
"kaggle-heuristic" on the heuristic fallback path and "kaggle-medgemma"
on the model path (normalized TriageResponse or passthrough mapping alike). -/
theorem c1_source_tag (P : Provider) (req : InferRequest) :
    outcomeSource (infer P req) = some (.str "kaggle-heuristic") ∨
    outcomeSource (infer P req) = some (.str "kaggle-medgemma") := by
  rcases infer_shape P req with h | ⟨d, r, hn, h⟩ | ⟨kvs, h⟩
  · rw [h]; left; simp [outcomeSource, heuristicFallback_source]
  · rw [h]; right; simp [outcomeSource, normalizeTriage_source _ _ hn]
  · rw [h]; right; simp [outcomeSource, dictGet_setKey_self]

-- ── C2 ─────────────────────────────────────────────────────────────────────

theorem heuristicFallback_fields (s : String) :
    ((heuristicFallback s).riskTier = "RED" ∨ (heuristicFallback s).riskTier = "YELLOW" ∨
       (heuristicFallback s).riskTier = "GREEN") ∧
    ((heuristicFallback s).uncertainty = "LOW" ∨ (heuristicFallback s).uncertainty = "MEDIUM" ∨
       (heuristicFallback s).uncertainty = "HIGH") ∧
    (heuristicFallback s).recommendedNextSteps ≠ [] ∧ (heuristicFallback s).watchOuts ≠ [] := by
  unfold heuristicFallback
  by_cases h1 : (redTerms.any fun t => pyIn t (pyLower s)) = true
  · simp [h1]
  · by_cases h2 : (yellowTerms.any fun t => pyIn t (pyLower s)) = true
    · simp [h1, h2]
    · simp [h1, h2]

theorem normalizeTriage_enums (d : Json) (r : InferResponse)
    (h : normalizeTriage d = .ok r) :
    (r.riskTier = "RED" ∨ r.riskTier = "YELLOW" ∨ r.riskTier = "GREEN") ∧
    (r.uncertainty = "LOW" ∨ r.uncertainty = "MEDIUM" ∨ r.uncertainty = "HIGH") := by
  unfold normalizeTriage at h
  split at h <;> try exact Except.noConfusion h
  split at h <;> try exact Except.noConfusion h
  split at h <;> try exact Except.noConfusion h
  split at h <;> try exact Except.noConfusion h
  split at h <;> try exact Except.noConfusion h
  split at h <;> try exact Except.noConfusion h
  split at h <;> try exact Except.noConfusion h
  cases h
  constructor
  · dsimp only
    split
    · rename_i hc
      simp only [Bool.or_eq_true, beq_iff_eq] at hc
      tauto
    · simp
  · dsimp only
    split
    · rename_i hc
      simp only [Bool.or_eq_true, beq_iff_eq] at hc
      tauto
    · simp

theorem normalizeTriage_default_lists (kvs : Jobj) (r : InferResponse)
    (h : normalizeTriage (.obj kvs) = .ok r) :
    (dictGet kvs "recommendedNextSteps" = none →
      r.recommendedNextSteps = ["Seek medical evaluation."]) ∧
    (dictGet kvs "watchOuts" = none →
      r.watchOuts = ["If symptoms worsen, seek care promptly."]) := by
  constructor
  · intro habs
    unfold normalizeTriage at h
    dsimp only at h
    rw [habs] at h
    simp only [Option.getD_none, pyList, Jarr.toList, validateStrList] at h
    split at h <;> try exact Except.noConfusion h
    split at h <;> try exact Except.noConfusion h
    split at h <;> try exact Except.noConfusion h
    split at h <;> try exact Except.noConfusion h
    cases h; rfl
  · intro habs
    unfold normalizeTriage at h
    dsimp only at h
    rw [habs] at h
    simp only [Option.getD_none, pyList, Jarr.toList, validateStrList] at h
    split at h <;> try exact Except.noConfusion h
    split at h <;> try exact Except.noConfusion h
    split at h <;> try exact Except.noConfusion h
    split at h <;> try exact Except.noConfusion h
    cases h; rfl

/-- C2, counterexample: with the model loaded and the parsed model JSON
supplying an explicitly empty `recommendedNextSteps` list, the triage
response returned by the handler has an empty `recommendedNextSteps`,
contradicting the claimed unconditional non-emptiness. -/
theorem c2_counterexample :
    respSteps (infer
        { loaded := true, generate := fun _ _ => .ok "\x7b\"recommendedNextSteps\": []\x7d" }
        { symptoms := "fever" }) = some [] := rfl

/-- C2, amended: every triage-path response body has riskTier and uncertainty
inside their enum domains and every field present (a full TriageResponse is
always returned for task triage or absent); recommendedNextSteps and
watchOuts are non-empty on the heuristic path and whenever absent from the
parsed model JSON, but a parsed model JSON that explicitly supplies an empty
list for them is passed through. -/
theorem c2_triage_schema :
    (∀ P req r, infer P req = .resp r →
      (r.riskTier = "RED" ∨ r.riskTier = "YELLOW" ∨ r.riskTier = "GREEN") ∧
      (r.uncertainty = "LOW" ∨ r.uncertainty = "MEDIUM" ∨ r.uncertainty = "HIGH")) ∧
    (∀ P req, req.task = none ∨ req.task = some "triage" → ∃ r, infer P req = .resp r) ∧
    (∀ s, (heuristicFallback s).recommendedNextSteps ≠ [] ∧ (heuristicFallback s).watchOuts ≠ []) ∧
    (∀ kvs r, normalizeTriage (.obj kvs) = .ok r →
      (dictGet kvs "recommendedNextSteps" = none → r.recommendedNextSteps ≠ []) ∧
      (dictGet kvs "watchOuts" = none → r.watchOuts ≠ [])) := by
  refine ⟨?_, ?_, ?_, ?_⟩
  · intro P req r h
    rcases infer_shape P req with h0 | ⟨d, r0, hn, h0⟩ | ⟨kvs, h0⟩
    · rw [h0] at h
      cases h
      exact ⟨(heuristicFallback_fields req.symptoms).1,
             (heuristicFallback_fields req.symptoms).2.1⟩
    · rw [h0] at h
      cases h
      exact normalizeTriage_enums d r hn
    · rw [h0] at h
      exact InferOutcome.noConfusion h
  · intro P req htask
    have ht : resolveTask req.task = "triage" := by
      rcases htask with h | h <;> simp [h, resolveTask]
    unfold infer
    dsimp only
    rw [ht]
    simp only [bne_self_eq_false, Bool.false_eq_true, if_false]
    split
    · exact ⟨_, rfl⟩
    · split
      · exact ⟨_, rfl⟩
      · split
        · exact ⟨_, rfl⟩
        · split
          · exact ⟨_, rfl⟩
          · exact ⟨_, rfl⟩
  · exact fun s => (heuristicFallback_fields s).2.2
  · intro kvs r h
    constructor
    · intro habs
      rw [(normalizeTriage_default_lists kvs r h).1 habs]
      simp
    · intro habs
      rw [(normalizeTriage_default_lists kvs r h).2 habs]
      simp

theorem c2_witness :
    ((heuristicFallback "x").riskTier = "RED" ∨ (heuristicFallback "x").riskTier = "YELLOW" ∨
       (heuristicFallback "x").riskTier = "GREEN") ∧
    ((heuristicFallback "x").uncertainty = "LOW" ∨ (heuristicFallback "x").uncertainty = "MEDIUM" ∨
       (heuristicFallback "x").uncertainty = "HIGH") :=
  c2_triage_schema.1 { loaded := false, generate := fun _ _ => .error "" }
    { symptoms := "x" } (heuristicFallback "x") rfl

-- ── C3 ─────────────────────────────────────────────────────────────────────

theorem validateStrList_charStrs : ∀ cs : List Char,
    ∃ ss, validateStrList (cs.map (fun c => .str (String.singleton c))) = .ok ss
  | [] => ⟨[], rfl⟩
  | c :: cs => by
    obtain ⟨ss, hss⟩ := validateStrList_charStrs cs
    exact ⟨String.singleton c :: ss, by simp [validateStrList, hss]⟩

theorem validateStrList_keys : ∀ kvs : Jobj,
    ∃ ss, validateStrList (pyList.pyKeys kvs) = .ok ss
  | .nil => ⟨[], rfl⟩
  | .cons k v tl => by
    obtain ⟨ss, hss⟩ := validateStrList_keys tl
    exact ⟨k :: ss, by simp [pyList.pyKeys, validateStrList, hss]⟩

theorem validateStrList_allStrs : ∀ xs : Jarr, allStrs xs = true →
    ∃ ss, validateStrList xs.toList = .ok ss
  | .nil, _ => ⟨[], rfl⟩
  | .cons v tl, h => by
    cases v
    case str s =>
      obtain ⟨ss, hss⟩ := validateStrList_allStrs tl (by simpa [allStrs] using h)
      exact ⟨s :: ss, by simp [Jarr.toList, validateStrList, hss]⟩
    all_goals simp [allStrs] at h

/-- A sequence field in the `listOk` domain passes both `list(...)` and the
pydantic `List[str]` element validation. -/
theorem listOk_fields (o : Option Json) (d : Jarr)
    (h : listOk o = true) (hd : ∃ ds, validateStrList (Jarr.toList d) = .ok ds) :
    ∃ l ss, pyList (o.getD (.arr d)) = .ok l ∧ validateStrList l = .ok ss := by
  cases o with
  | none =>
    obtain ⟨ds, hds⟩ := hd
    exact ⟨d.toList, ds, rfl, hds⟩
  | some v =>
    cases v with
    | str s =>
      obtain ⟨ss, hss⟩ := validateStrList_charStrs s.toList
      exact ⟨_, ss, rfl, hss⟩
    | arr xs =>
      obtain ⟨ss, hss⟩ := validateStrList_allStrs xs (by simpa [listOk] using h)
      exact ⟨_, ss, rfl, hss⟩
    | obj kvs =>
      obtain ⟨ss, hss⟩ := validateStrList_keys kvs
      exact ⟨_, ss, rfl, hss⟩
    | null => simp [listOk] at h
    | bool b => simp [listOk] at h
    | num n => simp [listOk] at h

/-- C3, counterexample: the triage normalization raises rather than repairs
when a sequence field holds a number (Python `list(5)` is a `TypeError`),
when the parsed top-level value is not an object (`data.get` on an `int` is
an `AttributeError`), and when a sequence field is an array containing a
non-string element such as `[[]]` (pydantic `ValidationError` at
`InferResponse(...)` construction). -/
theorem c3_counterexample :
    normalizeTriage (.obj (.cons "recommendedNextSteps" (.num 5) .nil)) =
      .error .typeError ∧
    normalizeTriage (.num 3) = .error .attributeError ∧
    normalizeTriage (.obj (.cons "recommendedNextSteps"
        (.arr (.cons (.arr .nil) .nil)) .nil)) =
      .error .validationError := ⟨rfl, rfl, rfl⟩

/-- C3, amended: the triage normalization never raises provided the parsed
value is a JSON object whose three sequence fields, where present, are
strings, objects, or arrays whose elements are all strings; a non-object
top-level value raises AttributeError at `data.get`, a number/boolean/null
sequence field raises TypeError at `list(...)`, and an array containing a
non-string element raises pydantic ValidationError at `InferResponse(...)`
construction — each caught by the orchestrator and routed to the heuristic
fallback. -/
theorem c3_normalize_total (kvs : Jobj)
    (h1 : listOk (dictGet kvs "recommendedNextSteps") = true)
    (h2 : listOk (dictGet kvs "watchOuts") = true)
    (h3 : listOk (dictGet kvs "dangerSigns") = true) :
    ∃ r, normalizeTriage (.obj kvs) = .ok r := by
  obtain ⟨l1, ss1, e1, v1⟩ := listOk_fields (dictGet kvs "recommendedNextSteps")
    (.cons (.str "Seek medical evaluation.") .nil) h1 ⟨_, rfl⟩
  obtain ⟨l2, ss2, e2, v2⟩ := listOk_fields (dictGet kvs "watchOuts")
    (.cons (.str "If symptoms worsen, seek care promptly.") .nil) h2 ⟨_, rfl⟩
  obtain ⟨l3, ss3, e3, v3⟩ := listOk_fields (dictGet kvs "dangerSigns") .nil h3 ⟨_, rfl⟩
  unfold normalizeTriage
  dsimp only
  rw [e1, e2, e3]
  dsimp only
  rw [v1, v2, v3]
  exact ⟨_, rfl⟩

theorem c3_witness :
    ∃ r, normalizeTriage (.obj (.cons "dangerSigns" (.arr .nil) .nil)) = .ok r :=
  c3_normalize_total (.cons "dangerSigns" (.arr .nil) .nil) rfl rfl rfl

-- ── C4 ─────────────────────────────────────────────────────────────────────

/-- C4: the normalization defaults are exactly as claimed: riskTier is the
uppercased value when that lies in the tier enum and YELLOW otherwise
(including when absent, since the absent default "YELLOW" is in the enum);
uncertainty likewise with default MEDIUM; referralRecommended, when absent,
defaults to the boolean riskTier != GREEN; and the single-field input
riskTier="unknown" yields YELLOW with every other field at its stated
default. -/
theorem c4_normalizer_defaults :
    (∀ kvs r, normalizeTriage (.obj kvs) = .ok r →
      (∀ u, u = pyUpper (pyStr ((dictGet kvs "riskTier").getD (.str "YELLOW"))) →
        ((u = "RED" ∨ u = "YELLOW" ∨ u = "GREEN") → r.riskTier = u) ∧
        (¬(u = "RED" ∨ u = "YELLOW" ∨ u = "GREEN") → r.riskTier = "YELLOW")) ∧
      (∀ u, u = pyUpper (pyStr ((dictGet kvs "uncertainty").getD (.str "MEDIUM"))) →
        ((u = "LOW" ∨ u = "MEDIUM" ∨ u = "HIGH") → r.uncertainty = u) ∧
        (¬(u = "LOW" ∨ u = "MEDIUM" ∨ u = "HIGH") → r.uncertainty = "MEDIUM")) ∧
      (dictGet kvs "referralRecommended" = none →
        r.referralRecommended = (r.riskTier != "GREEN"))) ∧
    normalizeTriage (.obj (.cons "riskTier" (.str "unknown") .nil)) =
      .ok { riskTier := "YELLOW", referralRecommended := true
            recommendedNextSteps := ["Seek medical evaluation."]
            watchOuts := ["If symptoms worsen, seek care promptly."]
            dangerSigns := [], uncertainty := "MEDIUM"
            disclaimer := disclaimerText
            reasoning := "MedGemma inference completed."
            model := MODEL_ID, source := "kaggle-medgemma" } := by
  constructor
  · intro kvs r h
    unfold normalizeTriage at h
    dsimp only at h
    split at h <;> try exact Except.noConfusion h
    split at h <;> try exact Except.noConfusion h
    split at h <;> try exact Except.noConfusion h
    split at h <;> try exact Except.noConfusion h
    split at h <;> try exact Except.noConfusion h
    split at h <;> try exact Except.noConfusion h
    cases h
    refine ⟨?_, ?_, ?_⟩
    · intro u hu
      subst hu
      constructor
      · intro hin
        have hb : (pyUpper (pyStr ((dictGet kvs "riskTier").getD (.str "YELLOW"))) == "RED" ||
            pyUpper (pyStr ((dictGet kvs "riskTier").getD (.str "YELLOW"))) == "YELLOW" ||
            pyUpper (pyStr ((dictGet kvs "riskTier").getD (.str "YELLOW"))) == "GREEN") = true := by
          rcases hin with h | h | h <;> simp [h]
        dsimp only
        rw [if_pos hb]
      · intro hout
        have hb : ¬((pyUpper (pyStr ((dictGet kvs "riskTier").getD (.str "YELLOW"))) == "RED" ||
            pyUpper (pyStr ((dictGet kvs "riskTier").getD (.str "YELLOW"))) == "YELLOW" ||
            pyUpper (pyStr ((dictGet kvs "riskTier").getD (.str "YELLOW"))) == "GREEN") = true) := by
          simpa [Bool.or_eq_true, beq_iff_eq, or_assoc] using hout
        dsimp only
        rw [if_neg hb]
    · intro u hu
      subst hu
      constructor
      · intro hin
        have hb : (pyUpper (pyStr ((dictGet kvs "uncertainty").getD (.str "MEDIUM"))) == "LOW" ||
            pyUpper (pyStr ((dictGet kvs "uncertainty").getD (.str "MEDIUM"))) == "MEDIUM" ||
            pyUpper (pyStr ((dictGet kvs "uncertainty").getD (.str "MEDIUM"))) == "HIGH") = true := by
          rcases hin with h | h | h <;> simp [h]
        dsimp only
        rw [if_pos hb]
      · intro hout
        have hb : ¬((pyUpper (pyStr ((dictGet kvs "uncertainty").getD (.str "MEDIUM"))) == "LOW" ||
            pyUpper (pyStr ((dictGet kvs "uncertainty").getD (.str "MEDIUM"))) == "MEDIUM" ||
            pyUpper (pyStr ((dictGet kvs "uncertainty").getD (.str "MEDIUM"))) == "HIGH") = true) := by
          simpa [Bool.or_eq_true, beq_iff_eq, or_assoc] using hout
        dsimp only
        rw [if_neg hb]
    · intro habs
      dsimp only
      rw [habs]
      rfl
  · rfl

theorem c4_witness :
    (InferResponse.riskTier
      { riskTier := "YELLOW", referralRecommended := true
        recommendedNextSteps := ["Seek medical evaluation."]
        watchOuts := ["If symptoms worsen, seek care promptly."]
        dangerSigns := [], uncertainty := "MEDIUM"
        disclaimer := disclaimerText
        reasoning := "MedGemma inference completed."
        model := MODEL_ID, source := "kaggle-medgemma" }) = "YELLOW" :=
  ((c4_normalizer_defaults.1 (.cons "riskTier" (.str "unknown") .nil) _
      c4_normalizer_defaults.2).1 _ rfl).2 (by decide)

-- ── C5 ─────────────────────────────────────────────────────────────────────

/-- C5: the heuristic fallback classifies by case-insensitive substring
matching, RED (referral, LOW uncertainty, non-empty dangerSigns) when any
RED term matches, else YELLOW (referral, MEDIUM uncertainty, empty
dangerSigns) when any YELLOW term matches, else GREEN (no referral, MEDIUM
uncertainty); the RED check strictly precedes the YELLOW check. -/
theorem c5_heuristic_tiers (x : String) :
    ((redTerms.any fun t => pyIn t (pyLower x)) = true →
      (heuristicFallback x).riskTier = "RED" ∧
      (heuristicFallback x).referralRecommended = true ∧
      (heuristicFallback x).uncertainty = "LOW" ∧
      (heuristicFallback x).dangerSigns ≠ []) ∧
    ((redTerms.any fun t => pyIn t (pyLower x)) = false →
     (yellowTerms.any fun t => pyIn t (pyLower x)) = true →
      (heuristicFallback x).riskTier = "YELLOW" ∧
      (heuristicFallback x).referralRecommended = true ∧
      (heuristicFallback x).uncertainty = "MEDIUM" ∧
      (heuristicFallback x).dangerSigns = []) ∧
    ((redTerms.any fun t => pyIn t (pyLower x)) = false →
     (yellowTerms.any fun t => pyIn t (pyLower x)) = false →
      (heuristicFallback x).riskTier = "GREEN" ∧
      (heuristicFallback x).referralRecommended = false ∧
      (heuristicFallback x).uncertainty = "MEDIUM" ∧
      (heuristicFallback x).dangerSigns = []) := by
  refine ⟨fun h1 => ?_, fun h1 h2 => ?_, fun h1 h2 => ?_⟩
  · simp [heuristicFallback, h1]
  · simp [heuristicFallback, h1, h2]
  · simp [heuristicFallback, h1, h2]

theorem c5_witness :
    (heuristicFallback "chest pain and fever").riskTier = "RED" ∧
    (redTerms.any fun t => pyIn t (pyLower "chest pain and fever")) = true ∧
    (yellowTerms.any fun t => pyIn t (pyLower "chest pain and fever")) = true :=
  ⟨((c5_heuristic_tiers "chest pain and fever").1 (by decide)).1, by decide, by decide⟩

-- ── C6 ─────────────────────────────────────────────────────────────────────

/-- C6: the heuristic fallback classifier is deterministic and pure: two
calls on the same text give identical results, and the result depends on the
text only through its lowercased form (the only use the code makes of it). -/
theorem c6_heuristic_deterministic (x y : String) (h : pyLower x = pyLower y) :
    heuristicFallback x = heuristicFallback x ∧
    heuristicFallback x = heuristicFallback y :=
  ⟨rfl, by unfold heuristicFallback; rw [h]⟩

theorem c6_witness :
    heuristicFallback "FeVer" = heuristicFallback "FeVer" ∧
    heuristicFallback "FeVer" = heuristicFallback "fever" :=
  c6_heuristic_deterministic "FeVer" "fever" rfl

-- ── C9 ─────────────────────────────────────────────────────────────────────

/-- C9: no exception escapes the handler; an unavailable provider, a raising
`generate`, a failed JSON parse of the extracted text, and a raising
normalization each yield the heuristic fallback classification of the
request's symptoms as a normal response. -/
theorem c9_failure_containment (req : InferRequest) :
    (∀ g, infer { loaded := false, generate := g } req =
      .resp (heuristicFallback req.symptoms)) ∧
    (∀ msg, infer { loaded := true, generate := fun _ _ => .error msg } req =
      .resp (heuristicFallback req.symptoms)) ∧
    (∀ P text, P.loaded = true →
      P.generate (chosenBuilder (resolveTask req.task) req)
        (if resolveTask req.task != "triage" then 250 else 350) = .ok text →
      parseJson (cleanJsonBlock text) = none →
      infer P req = .resp (heuristicFallback req.symptoms)) ∧
    (∀ P text data e, P.loaded = true → resolveTask req.task = "triage" →
      P.generate (chosenBuilder "triage" req) 350 = .ok text →
      parseJson (cleanJsonBlock text) = some data →
      normalizeTriage data = .error e →
      infer P req = .resp (heuristicFallback req.symptoms)) := by
  refine ⟨fun g => rfl, fun msg => rfl, ?_, ?_⟩
  · intro P text hl hg hp
    unfold infer
    dsimp only
    rw [hl]
    simp only [Bool.not_true, Bool.false_eq_true, if_false]
    rw [hg]
    dsimp only
    rw [hp]
  · intro P text data e hl ht hg hp hn
    unfold infer
    dsimp only
    rw [hl]
    simp only [Bool.not_true, Bool.false_eq_true, if_false]
    rw [ht]
    simp only [bne_self_eq_false, Bool.false_eq_true, if_false]
    rw [hg]
    dsimp only
    rw [hp]
    dsimp only
    rw [hn]

theorem c9_witness :
    infer { loaded := true, generate := fun _ _ => .ok "not json" }
        { symptoms := "dizzy" } = .resp (heuristicFallback "dizzy") :=
  (c9_failure_containment { symptoms := "dizzy" }).2.2.1
    { loaded := true, generate := fun _ _ => .ok "not json" } "not json" rfl rfl rfl

-- ── C10 ────────────────────────────────────────────────────────────────────

/-- C10, counterexample: the empty string is a set-but-unknown task value,
yet Python's `payload.task or "triage"` resolves it to "triage", so the
result is schema-normalized into a TriageResponse (here "green" is
uppercased and the triage defaults are filled in) instead of being passed
through as a mapping. -/
theorem c10_counterexample :
    infer { loaded := true, generate := fun _ _ => .ok "\x7b\"riskTier\": \"green\"\x7d" }
        { symptoms := "ok", task := some "" } =
      .resp { riskTier := "GREEN", referralRecommended := false
              recommendedNextSteps := ["Seek medical evaluation."]
              watchOuts := ["If symptoms worsen, seek care promptly."]
              dangerSigns := [], uncertainty := "MEDIUM"
              disclaimer := disclaimerText
              reasoning := "MedGemma inference completed."
              model := MODEL_ID, source := "kaggle-medgemma" } := rfl

/-- C10, amended: for every request whose task field is set, non-empty and
not one of the four known task identifiers, the orchestrator builds the
triage prompt (with the non-triage generation budget), yet post-processes
the parsed model JSON via the non-triage passthrough: the object is returned
as-is with only the provenance fields attached. -/
theorem c10_unknown_task (t : String) (ht0 : t ≠ "") (ht1 : t ≠ "triage")
    (ht2 : t ≠ "normalize_intake") (ht3 : t ≠ "generate_followup")
    (ht4 : t ≠ "generate_referral") :
    chosenBuilder t = buildTriagePrompt ∧
    (∀ P req text kvs, req.task = some t → P.loaded = true →
      P.generate (buildTriagePrompt req) 250 = .ok text →
      parseJson (cleanJsonBlock text) = some (.obj kvs) →
      infer P req = .mapping (setKey (setKey kvs "model" (.str MODEL_ID))
        "source" (.str "kaggle-medgemma"))) := by
  have hb1 : (t == "triage") = false := beq_eq_false_iff_ne.mpr ht1
  have hb2 : (t == "normalize_intake") = false := beq_eq_false_iff_ne.mpr ht2
  have hb3 : (t == "generate_followup") = false := beq_eq_false_iff_ne.mpr ht3
  have hb4 : (t == "generate_referral") = false := beq_eq_false_iff_ne.mpr ht4
  have hbuilder : chosenBuilder t = buildTriagePrompt := by
    simp [chosenBuilder, hb1, hb2, hb3, hb4]
  refine ⟨hbuilder, ?_⟩
  intro P req text kvs hreq hl hg hp
  have hrt : resolveTask req.task = t := by
    rw [hreq]
    simp [resolveTask, beq_eq_false_iff_ne.mpr ht0]
  have hbne : (t != "triage") = true := by simp [bne, hb1]
  unfold infer
  dsimp only
  rw [hl]
  simp only [Bool.not_true, Bool.false_eq_true, if_false]
  rw [hrt, hbuilder, hbne]
  simp only [if_true]
  rw [hg]
  dsimp only
  rw [hp]

theorem c10_witness :
    infer { loaded := true, generate := fun _ _ => .ok "\x7b\"a\": 1\x7d" }
        { symptoms := "x", task := some "summarize" } =
      .mapping (setKey (setKey (.cons "a" (.num 1) .nil) "model" (.str MODEL_ID))
        "source" (.str "kaggle-medgemma")) :=
  (c10_unknown_task "summarize" (by decide) (by decide) (by decide) (by decide)
      (by decide)).2
    { loaded := true, generate := fun _ _ => .ok "\x7b\"a\": 1\x7d" }
    { symptoms := "x", task := some "summarize" }
    "\x7b\"a\": 1\x7d" (.cons "a" (.num 1) .nil) rfl rfl rfl rfl

-- ── C7 ─────────────────────────────────────────────────────────────────────

theorem reSearch_none_of_no_rbrace :
    ∀ cs, lastIdx rbrace cs = none → reSearch cs = none
  | [], _ => rfl
  | a :: rest, h => by
    unfold lastIdx at h
    rcases hr : lastIdx rbrace rest with _ | j
    · rw [hr] at h
      unfold reSearch
      rw [hr]
      by_cases ha : (a == lbrace) = true
      · rw [if_pos ha]
        exact reSearch_none_of_no_rbrace rest hr
      · rw [if_neg ha]
        exact reSearch_none_of_no_rbrace rest hr
    · rw [hr] at h
      exact Option.noConfusion h

theorem reSearch_none_of_no_lbrace :
    ∀ cs, firstIdx lbrace cs = none → reSearch cs = none
  | [], _ => rfl
  | a :: rest, h => by
    unfold firstIdx at h
    by_cases ha : (a == lbrace) = true
    · rw [if_pos ha] at h
      exact Option.noConfusion h
    · rw [if_neg ha] at h
      have hrest : firstIdx lbrace rest = none := by
        rcases hf : firstIdx lbrace rest with _ | i
        · rfl
        · rw [hf] at h
          simp at h
      unfold reSearch
      rw [if_neg ha]
      exact reSearch_none_of_no_lbrace rest hrest

/-- The leftmost-greedy regex search coincides with the declarative
description: the span from the first opening brace to the last closing
brace, when the former strictly precedes the latter. -/
theorem reSearch_eq_slice : ∀ cs : List Char,
    reSearch cs = (match firstIdx lbrace cs, lastIdx rbrace cs with
      | some i, some j => if i < j then some ((cs.drop i).take (j - i + 1)) else none
      | _, _ => none)
  | [] => rfl
  | a :: rest => by
    by_cases ha : (a == lbrace) = true
    · have ha' : a = lbrace := by simpa using ha
      subst ha'
      rcases hr : lastIdx rbrace rest with _ | j
      · have hnil : lastIdx rbrace (lbrace :: rest) = none := by
          unfold lastIdx
          rw [hr]
          simp [lbrace, rbrace]
        unfold reSearch
        rw [hr, hnil]
        simp only [firstIdx]
        rw [if_pos (by simp)]
        exact reSearch_none_of_no_rbrace rest hr
      · have hcons : lastIdx rbrace (lbrace :: rest) = some (j + 1) := by
          unfold lastIdx
          rw [hr]
        unfold reSearch
        rw [hr, hcons]
        simp only [firstIdx]
        simp [List.take_succ_cons]
    · have hf1 : firstIdx lbrace (a :: rest) = (firstIdx lbrace rest).map (· + 1) := by
        simp [firstIdx, ha]
      have lhs : reSearch (a :: rest) = reSearch rest := by
        simp only [reSearch]
        rw [if_neg ha]
      rcases hf : firstIdx lbrace rest with _ | i
      · rw [lhs, reSearch_none_of_no_lbrace rest hf, hf1, hf]
        rfl
      · rcases hr : lastIdx rbrace rest with _ | j
        · have ihr := reSearch_eq_slice rest
          rw [hf, hr] at ihr
          dsimp only at ihr
          rw [lhs, ihr]
          have hlast : lastIdx rbrace (a :: rest) =
              (if a == rbrace then some 0 else none) := by
            unfold lastIdx
            rw [hr]
          rw [hf1, hf, hlast]
          by_cases hb : (a == rbrace) = true
          · rw [if_pos hb]
            dsimp only [Option.map]
            rw [if_neg (by omega)]
          · rw [if_neg hb]
            rfl
        · have ihr := reSearch_eq_slice rest
          rw [hf, hr] at ihr
          dsimp only at ihr
          rw [lhs, ihr]
          have hlast : lastIdx rbrace (a :: rest) = some (j + 1) := by
            unfold lastIdx
            rw [hr]
          rw [hf1, hf, hlast]
          dsimp only [Option.map]
          by_cases hij : i < j
          · rw [if_pos hij, if_pos (by omega)]
            simp [List.drop_succ_cons, Nat.succ_sub_succ]
          · rw [if_neg hij, if_neg (by omega)]

/-- C7: the extractor trims, strips the optional (case-insensitively
"json"-tagged) leading fence and the trailing fence, then returns the
substring from the first opening brace to the last closing brace of the
remaining text when one exists, and otherwise the trimmed, fence-stripped
text unchanged. -/
theorem c7_extractor (text : String) : cleanJsonBlock text = cleanJsonBlockSpec text := by
  unfold cleanJsonBlock cleanJsonBlockSpec
  dsimp only
  rw [reSearch_eq_slice]
  cases h1 : firstIdx lbrace
      (pyStripList (stripTrailFence (pyStripList (stripLeadFence (pyStripList text.toList))))) with
  | none => rfl
  | some i =>
    cases h2 : lastIdx rbrace
        (pyStripList (stripTrailFence (pyStripList (stripLeadFence (pyStripList text.toList))))) with
    | none => rfl
    | some j =>
      dsimp only
      by_cases hij : i < j
      · rw [if_pos hij, if_pos hij]
      · rw [if_neg hij, if_neg hij]

-- ── C8 ─────────────────────────────────────────────────────────────────────

theorem pyStripList_eq (cs : List Char) :
    pyStripList cs = pyStripBack (cs.dropWhile pyWS) := rfl

theorem dropWhile_append_nonws (u v : List Char) (c : Char) (h : pyWS c = false) :
    (u ++ c :: v).dropWhile pyWS = u.dropWhile pyWS ++ (c :: v) := by
  induction u with
  | nil => simp [List.dropWhile_cons, h]
  | cons a u ih =>
    by_cases ha : pyWS a = true
    · simp [List.dropWhile_cons, ha, ih]
    · simp [List.dropWhile_cons, ha]

theorem pyStripBack_append (m ys : List Char) (c : Char) (h : pyWS c = false) :
    pyStripBack ((m ++ [c]) ++ ys) = (m ++ [c]) ++ pyStripBack ys := by
  unfold pyStripBack
  have h1 : ((m ++ [c]) ++ ys).reverse = ys.reverse ++ (c :: m.reverse) := by simp
  rw [h1, dropWhile_append_nonws _ _ _ h]
  simp

theorem mem_pyStripBack (cs : List Char) (x : Char) (h : x ∈ pyStripBack cs) : x ∈ cs := by
  unfold pyStripBack at h
  rw [List.mem_reverse] at h
  have hsub := (@List.dropWhile_sublist Char cs.reverse pyWS).subset h
  rwa [List.mem_reverse] at hsub

theorem lastIdx_eq_none_of_not_mem (c : Char) : ∀ ys, c ∉ ys → lastIdx c ys = none
  | [], _ => rfl
  | a :: ys, h => by
    unfold lastIdx
    rw [lastIdx_eq_none_of_not_mem c ys (fun hm => h (List.mem_cons_of_mem a hm))]
    have hne : (a == c) = false := by
      rw [beq_eq_false_iff_ne]
      intro he
      exact h (by rw [← he]; exact List.mem_cons_self a ys)
    rw [hne]
    simp

theorem lastIdx_append_not_mem (c : Char) :
    ∀ xs ys, c ∉ ys → lastIdx c (xs ++ ys) = lastIdx c xs
  | [], ys, h => by
    simp only [List.nil_append]
    rw [lastIdx_eq_none_of_not_mem c ys h]
    rfl
  | a :: xs, ys, h => by
    show lastIdx c (a :: (xs ++ ys)) = lastIdx c (a :: xs)
    unfold lastIdx
    rw [lastIdx_append_not_mem c xs ys h]

theorem lastIdx_snoc_self (c : Char) : ∀ xs, lastIdx c (xs ++ [c]) = some xs.length
  | [] => by simp [lastIdx]
  | a :: xs => by
    show lastIdx c (a :: (xs ++ [c])) = some (xs.length + 1)
    unfold lastIdx
    rw [lastIdx_snoc_self c xs]

theorem stripTrailFence_shape (mid w : List Char) :
    ∃ w', stripTrailFence ((mid ++ [rbrace]) ++ w) = (mid ++ [rbrace]) ++ w' ∧
      ∀ x, x ∈ w' → x ∈ w := by
  have hfc : fenceChars = [Char.ofNat 96, Char.ofNat 96, Char.ofNat 96] := rfl
  have hbr : (Char.ofNat 96 == rbrace) = false := by decide
  unfold stripTrailFence
  have hrev : ((mid ++ [rbrace]) ++ w).reverse = w.reverse ++ (rbrace :: mid.reverse) := by
    simp
  rw [hrev]
  rcases hv : w.reverse with _ | ⟨x, vtail⟩
  · rw [if_neg (by simp [hfc, listPre, hbr])]
    exact ⟨w, rfl, fun _ hx => hx⟩
  · rcases vtail with _ | ⟨y, vtail2⟩
    · rw [if_neg (by simp [hfc, listPre, hbr])]
      exact ⟨w, rfl, fun _ hx => hx⟩
    · rcases vtail2 with _ | ⟨z, v2⟩
      · rw [if_neg (by simp [hfc, listPre, hbr])]
        exact ⟨w, rfl, fun _ hx => hx⟩
      · have hw : w = v2.reverse ++ [z, y, x] := by
          rw [← List.reverse_reverse w, hv]
          simp
        by_cases hc : listPre fenceChars (x :: y :: z :: v2 ++ (rbrace :: mid.reverse)) = true
        · rw [if_pos hc]
          refine ⟨v2.reverse, ?_, ?_⟩
          · simp
          · intro a ha
            rw [hw]
            exact List.mem_append_left _ ha
        · rw [if_neg hc]
          exact ⟨w, rfl, fun _ hx => hx⟩

/-- The extractor pipeline on a fenced JSON object followed by a trailing
block: the prepared text is the object's characters followed by a residue
that contains no closing brace. -/
theorem clean_core (mid w : List Char) (hw : rbrace ∉ w) :
    ∃ u, pyStripList (stripTrailFence (pyStripList (stripLeadFence (pyStripList
      ([btick, btick, btick, 'j', 's', 'o', 'n', nlChar] ++
        ((lbrace :: (mid ++ [rbrace])) ++
          (nlChar :: ([btick, btick, btick] ++ (nlChar :: w))))))))) =
      (lbrace :: (mid ++ [rbrace])) ++ u ∧ rbrace ∉ u := by
  set tail := nlChar :: ([btick, btick, btick] ++ (nlChar :: w)) with htail
  have h1 : pyStripList ([btick, btick, btick, 'j', 's', 'o', 'n', nlChar] ++
      ((lbrace :: (mid ++ [rbrace])) ++ tail)) =
      [btick, btick, btick, 'j', 's', 'o', 'n', nlChar] ++
      ((lbrace :: (mid ++ [rbrace])) ++ pyStripBack tail) := by
    rw [pyStripList_eq]
    have hd : ([btick, btick, btick, 'j', 's', 'o', 'n', nlChar] ++
        ((lbrace :: (mid ++ [rbrace])) ++ tail)).dropWhile pyWS =
        [btick, btick, btick, 'j', 's', 'o', 'n', nlChar] ++
        ((lbrace :: (mid ++ [rbrace])) ++ tail) := rfl
    rw [hd]
    have hassoc : [btick, btick, btick, 'j', 's', 'o', 'n', nlChar] ++
        ((lbrace :: (mid ++ [rbrace])) ++ tail) =
        (([btick, btick, btick, 'j', 's', 'o', 'n', nlChar] ++ (lbrace :: mid)) ++ [rbrace]) ++ tail := by
      simp
    rw [hassoc, pyStripBack_append _ _ _ (by decide)]
    simp
  have h2 : stripLeadFence ([btick, btick, btick, 'j', 's', 'o', 'n', nlChar] ++
      ((lbrace :: (mid ++ [rbrace])) ++ pyStripBack tail)) =
      nlChar :: ((lbrace :: (mid ++ [rbrace])) ++ pyStripBack tail) := rfl
  have h3 : pyStripList (nlChar :: ((lbrace :: (mid ++ [rbrace])) ++ pyStripBack tail)) =
      (lbrace :: (mid ++ [rbrace])) ++ pyStripBack (pyStripBack tail) := by
    rw [pyStripList_eq]
    have hd : (nlChar :: ((lbrace :: (mid ++ [rbrace])) ++ pyStripBack tail)).dropWhile pyWS =
        (lbrace :: (mid ++ [rbrace])) ++ pyStripBack tail := rfl
    rw [hd]
    have hassoc : (lbrace :: (mid ++ [rbrace])) ++ pyStripBack tail =
        ((lbrace :: mid) ++ [rbrace]) ++ pyStripBack tail := by simp
    rw [hassoc, pyStripBack_append _ _ _ (by decide)]
    simp
  obtain ⟨w3, hw3, hmem3⟩ :=
    stripTrailFence_shape (lbrace :: mid) (pyStripBack (pyStripBack tail))
  have hassoc4 : (lbrace :: (mid ++ [rbrace])) ++ pyStripBack (pyStripBack tail) =
      ((lbrace :: mid) ++ [rbrace]) ++ pyStripBack (pyStripBack tail) := by simp
  have h5 : pyStripList (((lbrace :: mid) ++ [rbrace]) ++ w3) =
      ((lbrace :: mid) ++ [rbrace]) ++ pyStripBack w3 := by
    rw [pyStripList_eq]
    have hd : ((((lbrace :: mid) ++ [rbrace]) ++ w3)).dropWhile pyWS =
        ((lbrace :: mid) ++ [rbrace]) ++ w3 := rfl
    rw [hd, pyStripBack_append _ _ _ (by decide)]
  refine ⟨pyStripBack w3, ?_, ?_⟩
  · rw [h1, h2, h3, hassoc4, hw3, h5]
    simp
  · intro hmem
    have hm1 : rbrace ∈ w3 := mem_pyStripBack _ _ hmem
    have hm2 := hmem3 _ hm1
    have hm3 := mem_pyStripBack _ _ hm2
    have hm4 := mem_pyStripBack _ _ hm3
    rw [htail] at hm4
    have hne1 : rbrace ≠ nlChar := by decide
    have hne2 : rbrace ≠ btick := by decide
    simp [hne1, hne2] at hm4
    exact hw hm4

/-- C8, counterexample: a valid JSON object in a json-tagged fence followed
by trailing prose that contains a closing brace: the extractor's greedy span
runs to the last closing brace inside the prose, and the extracted string no
longer parses, so the round-trip fails for arbitrary surrounding prose. -/
theorem c8_counterexample :
    cleanJsonBlock "```json\n\x7b\"a\": 1\x7d\n``` note\x7d" =
      "\x7b\"a\": 1\x7d\n``` note\x7d" ∧
    parseJson (cleanJsonBlock "```json\n\x7b\"a\": 1\x7d\n``` note\x7d") = none :=
  ⟨rfl, rfl⟩

/-- C8, amended: for every valid JSON object text (beginning with its opening
brace and ending with its closing brace) wrapped in a json-tagged fence and
followed by trailing prose that contains no closing brace, the extractor
returns exactly the object text, which parses back to the same JSON
object. -/
theorem c8_fenced_roundtrip (s post : String) (mid : List Char) (kvs : Jobj)
    (hs : s.toList = lbrace :: (mid ++ [rbrace]))
    (hpost : rbrace ∉ post.toList)
    (hparse : parseJson s = some (.obj kvs)) :
    cleanJsonBlock ("```json\n" ++ s ++ "\n```\n" ++ post) = s ∧
    parseJson (cleanJsonBlock ("```json\n" ++ s ++ "\n```\n" ++ post)) =
      some (.obj kvs) := by
  have hfull : ("```json\n" ++ s ++ "\n```\n" ++ post).toList =
      [btick, btick, btick, 'j', 's', 'o', 'n', nlChar] ++
        ((lbrace :: (mid ++ [rbrace])) ++
          (nlChar :: ([btick, btick, btick] ++ (nlChar :: post.toList)))) := by
    have hsplit : ("```json\n" ++ s ++ "\n```\n" ++ post).toList =
        "```json\n".toList ++ (s.toList ++ ("\n```\n".toList ++ post.toList)) := by
      simp [String.toList, String.data_append, List.append_assoc]
    rw [hsplit, hs]
    simp
    all_goals decide
  obtain ⟨u, hu, humem⟩ := clean_core mid post.toList hpost
  have hclean : cleanJsonBlock ("```json\n" ++ s ++ "\n```\n" ++ post) = s := by
    unfold cleanJsonBlock
    dsimp only
    rw [hfull, hu, reSearch_eq_slice]
    have hfi : firstIdx lbrace ((lbrace :: (mid ++ [rbrace])) ++ u) = some 0 := by
      show firstIdx lbrace (lbrace :: ((mid ++ [rbrace]) ++ u)) = some 0
      simp [firstIdx]
    have hli : lastIdx rbrace ((lbrace :: (mid ++ [rbrace])) ++ u) =
        some (mid.length + 1) := by
      rw [lastIdx_append_not_mem _ _ _ humem]
      have hsnoc : lbrace :: (mid ++ [rbrace]) = (lbrace :: mid) ++ [rbrace] := by simp
      rw [hsnoc, lastIdx_snoc_self]
      simp
    rw [hfi, hli]
    dsimp only
    rw [if_pos (by omega)]
    have hdrop : ((lbrace :: (mid ++ [rbrace])) ++ u).drop 0 =
        (lbrace :: (mid ++ [rbrace])) ++ u := rfl
    have htake : ((lbrace :: (mid ++ [rbrace])) ++ u).take (mid.length + 1 - 0 + 1) =
        lbrace :: (mid ++ [rbrace]) := by
      have hlen : (lbrace :: (mid ++ [rbrace])).length = mid.length + 1 - 0 + 1 := by simp
      rw [← hlen, List.take_left]
    rw [hdrop, htake, ← hs]
    rfl
  exact ⟨hclean, by rw [hclean, hparse]⟩

theorem c8_witness :
    parseJson (cleanJsonBlock ("```json\n" ++ "\x7b\"a\": 1\x7d" ++ "\n```\n" ++ " done")) =
      some (.obj (.cons "a" (.num 1) .nil)) :=
  (c8_fenced_roundtrip "\x7b\"a\": 1\x7d" " done" [qchar, 'a', qchar, ':', ' ', '1']
    (.cons "a" (.num 1) .nil) (by decide) (by decide) rfl).2
